import Mathlib

/-!
Verification development for the cpp-pcp-client connection test client.

The repository source under verification is src/src/main.cpp, the CLI driver
(Cthun::runTestConnection and Cthun::main). The Connection, ConnectionManager
and Endpoint implementations are declared in headers that are not part of the
repository snapshot, so those components are modelled from the specification
(spec.md, sections 3, 4, 5 and 7); each such definition carries a doc comment
starting with Modelled from the spec. The driver itself is embedded directly
from main.cpp.
-/

namespace Cthun

/-- Modelled from the spec: the per-connection lifecycle states of spec
section 3 (enum Connecting, Open, Failed, Closed). The source enum is
Client::Connection_State_Values; its value named open is a Lean keyword, so it
is rendered here as opened. The implementation header connection.h is not under
src/. -/
inductive Connection_State_Values where
  | connecting
  | opened
  | failed
  | closed
deriving DecidableEq

/-- Modelled from the spec: the Connection record of spec section 3: id,
target URL, state, optional error reason, transport handle (abstracted to a
validity flag), and the two registered callbacks (abstracted to abstract numeric
identifiers, since only registration, replacement and firing matter here).
The implementation connection.h / connection.cpp is not under src/. -/
structure Connection where
  id : Nat
  targetUrl : String
  state : Connection_State_Values
  errorReason : Option String
  hasHandle : Bool
  onOpen : Option Nat
  onFail : Option Nat
deriving DecidableEq

/-- Modelled from the spec: the synchronous misuse error kinds of spec
section 7, ConnectionError(NotFound | AlreadyOpen | NotOpen |
PreconditionViolated). -/
inductive ConnectionError where
  | NotFound
  | AlreadyOpen
  | NotOpen
  | PreconditionViolated
deriving DecidableEq

/-- The callback kinds delivered for a single connection, from spec
sections 4.2 and 5: the open and fail callbacks, inbound-message delivery, and
close completion. -/
inductive CbKind where
  | openCb
  | failCb
  | messageCb
  | closeCb
deriving DecidableEq

/-- Modelled from the spec: the narrow transport-engine interface of spec
section 6 (beginHandshake, sendFrame, closeHandshake), recorded as the
operations the manager hands to the engine. -/
inductive TransportOp where
  | beginHandshake (cid : Nat) (url : String)
  | sendFrame (cid : Nat) (payload : String)
  | closeHandshake (cid : Nat)
deriving DecidableEq

/-- An observable effect of a manager operation: a transport-engine request, a
connection state transition, or a user-visible callback firing. -/
inductive LogEntry where
  | transport (op : TransportOp)
  | stateChange (cid : Nat) (oldS newS : Connection_State_Values)
  | callbackFired (cid : Nat) (k : CbKind)
deriving DecidableEq

/-- Modelled from the spec: the ConnectionManager record of spec section 3:
the shared TLS endpoint configuration (abstracted to a configured flag, since
file validation is out of scope), the registry of connections, and the id
counter assigning fresh unique ids. The implementation connection_manager.h /
connection_manager.cpp is not under src/. -/
structure ConnectionManager where
  tlsConfigured : Bool
  registry : List Connection
  nextId : Nat
deriving DecidableEq

namespace Client

/-- A manager with no TLS context configured and an empty registry. -/
def initialManager : ConnectionManager :=
  { tlsConfigured := false, registry := [], nextId := 0 }

/-- Modelled from the spec: configureSecureEndpoint of spec section 4.1.
Path and certificate validation is out of scope (section 1); a successful call
stores a reusable TLS context, recorded as the configured flag. -/
def configureSecureEndpoint (m : ConnectionManager) : ConnectionManager :=
  { m with tlsConfigured := true }

/-- Modelled from the spec: createConnection of spec section 4.3: allocates a
Connection with a fresh unique id, state Connecting, no handle, no callbacks,
inserts it into the registry and returns its id. Initiates no network I/O. -/
def createConnection (m : ConnectionManager) (url : String) :
    ConnectionManager × Nat :=
  let c : Connection :=
    { id := m.nextId, targetUrl := url,
      state := Connection_State_Values.connecting, errorReason := none,
      hasHandle := false, onOpen := none, onFail := none }
  ({ m with registry := m.registry ++ [c], nextId := m.nextId + 1 }, m.nextId)

/-- Modelled from the spec: setOnOpenCallback of spec section 4.2: registers
exactly one open handler; re-registering replaces the previous handler. -/
def setOnOpenCallback (c : Connection) (cb : Nat) : Connection :=
  { c with onOpen := some cb }

/-- Modelled from the spec: setOnFailCallback of spec section 4.2: registers
exactly one fail handler; re-registering replaces the previous handler. -/
def setOnFailCallback (c : Connection) (cb : Nat) : Connection :=
  { c with onFail := some cb }

/-- Registry lookup by connection id (spec section 4.3: the manager routes by
id). -/
def findConn : List Connection → Nat → Option Connection
  | [], _ => none
  | c :: rest, cid => if c.id = cid then some c else findConn rest cid

/-- Apply a function to the registry entry with the given id, leaving all
other entries unchanged. -/
def updateConn (reg : List Connection) (cid : Nat) (f : Connection → Connection) :
    List Connection :=
  reg.map (fun c => if c.id = cid then f c else c)

/-- Modelled from the spec: the open operation of spec section 4.3: schedules
the TLS handshake and WebSocket upgrade with the transport engine and returns
immediately; completion arrives later through engine events. It fails
synchronously only for immediate precondition violations: no TLS context
configured, connection not found in the registry, or connection already
open/closed (the handle is attached when open is issued, spec section 3
lifecycle, so a repeated open on the same connection is AlreadyOpen). -/
def openConnection (m : ConnectionManager) (cid : Nat) :
    Except ConnectionError (ConnectionManager × List LogEntry) :=
  if m.tlsConfigured = false then
    Except.error ConnectionError.PreconditionViolated
  else
    match findConn m.registry cid with
    | none => Except.error ConnectionError.NotFound
    | some c =>
      if c.hasHandle = true ∨ c.state ≠ Connection_State_Values.connecting then
        Except.error ConnectionError.AlreadyOpen
      else
        Except.ok
          ({ m with registry :=
              updateConn m.registry cid (fun c0 => { c0 with hasHandle := true }) },
           [LogEntry.transport (TransportOp.beginHandshake cid c.targetUrl)])

/-- Modelled from the spec: the send operation of spec section 4.3: the
manager validates the state internally on every call; the payload is handed to
the transport engine as a text frame only when the connection state is Open,
and otherwise the call fails with ConnectionError(NotOpen) without touching
the transport. A connection missing from the registry is NotFound (spec
section 7 taxonomy). -/
def sendMessage (m : ConnectionManager) (cid : Nat) (payload : String) :
    Except ConnectionError (List LogEntry) :=
  match findConn m.registry cid with
  | none => Except.error ConnectionError.NotFound
  | some c =>
    if c.state = Connection_State_Values.opened then
      Except.ok [LogEntry.transport (TransportOp.sendFrame cid payload)]
    else
      Except.error ConnectionError.NotOpen

/-- Modelled from the spec: the per-connection asynchronous events the
transport engine delivers to the manager (spec sections 4.3 and 6): handshake
success, handshake failure with a reason, an inbound message, and close
completion. -/
inductive EngineEvent where
  | handshakeSuccess
  | handshakeFailure (reason : String)
  | messageReceived (payload : String)
  | closeComplete
deriving DecidableEq

/-- Modelled from the spec: the manager routing of one engine event into the
transition operations of spec section 4.2, guarded by the current state of the
matching connection. A handshake result applies only to a Connecting
connection and fires the corresponding callback exactly once (markOpen /
markFailed). An inbound message is delivered only while Open. Close completion
closes an Open connection and delivers the close event last; a close that
completes for a still-Connecting connection (issued by closeAllConnections,
spec section 4.3) marks it Closed without any user-visible callback, since the
spec registers no close callback and orders user-visible events as open/fail
first (section 5). Failed and Closed are terminal (section 4.3 state machine),
so events arriving in those states are ignored; in particular markClosed is
idempotent. -/
def dispatchEvent (c : Connection) (e : EngineEvent) : Connection × List LogEntry :=
  match e with
  | EngineEvent.handshakeSuccess =>
    if c.state = Connection_State_Values.connecting then
      ({ c with state := Connection_State_Values.opened, hasHandle := true },
       [LogEntry.stateChange c.id Connection_State_Values.connecting
          Connection_State_Values.opened,
        LogEntry.callbackFired c.id CbKind.openCb])
    else (c, [])
  | EngineEvent.handshakeFailure reason =>
    if c.state = Connection_State_Values.connecting then
      ({ c with state := Connection_State_Values.failed,
                errorReason := some reason, hasHandle := false },
       [LogEntry.stateChange c.id Connection_State_Values.connecting
          Connection_State_Values.failed,
        LogEntry.callbackFired c.id CbKind.failCb])
    else (c, [])
  | EngineEvent.messageReceived _ =>
    if c.state = Connection_State_Values.opened then
      (c, [LogEntry.callbackFired c.id CbKind.messageCb])
    else (c, [])
  | EngineEvent.closeComplete =>
    if c.state = Connection_State_Values.opened then
      ({ c with state := Connection_State_Values.closed, hasHandle := false },
       [LogEntry.stateChange c.id Connection_State_Values.opened
          Connection_State_Values.closed,
        LogEntry.callbackFired c.id CbKind.closeCb])
    else if c.state = Connection_State_Values.connecting then
      ({ c with state := Connection_State_Values.closed, hasHandle := false },
       [LogEntry.stateChange c.id Connection_State_Values.connecting
          Connection_State_Values.closed])
    else (c, [])

/-- Modelled from the spec: the per-connection effects of closeAllConnections
(spec section 4.3): for every registry entry whose state is Connecting or
Open, a close request is issued to the transport engine and the connection is
marked Closed; Failed connections and already Closed connections need no
transport operation. -/
def closeAllLog : List Connection → List LogEntry
  | [] => []
  | c :: rest =>
    if c.state = Connection_State_Values.connecting
        ∨ c.state = Connection_State_Values.opened then
      LogEntry.transport (TransportOp.closeHandshake c.id)
        :: LogEntry.stateChange c.id c.state Connection_State_Values.closed
        :: closeAllLog rest
    else closeAllLog rest

/-- Modelled from the spec: closeAllConnections of spec section 4.3: issues a
close to the transport engine for every Connecting or Open connection, marks
each Closed, then clears the registry. It never fails (spec section 7: close
errors are swallowed and forward progress is guaranteed). -/
def closeAllConnections (m : ConnectionManager) :
    ConnectionManager × List LogEntry :=
  ({ m with registry := [] }, closeAllLog m.registry)

/-- The manager operations a caller or the transport engine can drive,
covering the public interface of spec section 6 plus engine-event routing. -/
inductive ManagerOp where
  | configure
  | create (url : String)
  | openConn (cid : Nat)
  | sendMsg (cid : Nat) (payload : String)
  | engineEvt (cid : Nat) (e : EngineEvent)
  | closeAll
deriving DecidableEq

/-- Modelled from the spec: one step of the connection manager: apply one
operation, returning the new manager, the observable effect log, and the
synchronous error if the operation failed (in which case the manager is
unchanged and nothing reaches the transport). Engine events for an id not in
the registry are dropped (spec section 4.3: events are routed by id under the
same lock as the public operations). -/
def applyOp (m : ConnectionManager) (op : ManagerOp) :
    ConnectionManager × List LogEntry × Option ConnectionError :=
  match op with
  | ManagerOp.configure => (configureSecureEndpoint m, [], none)
  | ManagerOp.create url => ((createConnection m url).1, [], none)
  | ManagerOp.openConn cid =>
    match openConnection m cid with
    | Except.ok (m1, log) => (m1, log, none)
    | Except.error e => (m, [], some e)
  | ManagerOp.sendMsg cid payload =>
    match sendMessage m cid payload with
    | Except.ok log => (m, log, none)
    | Except.error e => (m, [], some e)
  | ManagerOp.engineEvt cid e =>
    match findConn m.registry cid with
    | none => (m, [], none)
    | some c =>
      let r := dispatchEvent c e
      ({ m with registry := updateConn m.registry cid (fun _ => r.1) }, r.2, none)
  | ManagerOp.closeAll =>
    let r := closeAllConnections m
    (r.1, r.2, none)

/-- Run a list of manager operations from a starting manager state. -/
def applyOps (m : ConnectionManager) : List ManagerOp → ConnectionManager
  | [] => m
  | op :: rest => applyOps (applyOp m op).1 rest

/-- Process a list of engine events against a single connection, accumulating
the effect log (the per-connection view of the manager event routing of spec
section 4.3). -/
def runEvents (c : Connection) : List EngineEvent → Connection × List LogEntry
  | [] => (c, [])
  | e :: rest =>
    let r1 := dispatchEvent c e
    let r2 := runEvents r1.1 rest
    (r2.1, r1.2 ++ r2.2)

/-- The user-visible callback trace of an effect log. -/
def cbTrace (log : List LogEntry) : List CbKind :=
  log.filterMap (fun entry =>
    match entry with
    | LogEntry.callbackFired _ k => some k
    | _ => none)

/-- Acceptor for the tail of a per-connection callback trace after the
open-or-fail event: zero or more message deliveries, optionally ended by a
single close event. -/
def validTail : List CbKind → Bool
  | [] => true
  | CbKind.messageCb :: rest => validTail rest
  | [CbKind.closeCb] => true
  | _ => false

/-- Acceptor for a per-connection callback trace: a prefix of one open or fail
event, then zero or more message deliveries, then a close event (spec
section 5 ordering guarantee). -/
def validTrace : List CbKind → Bool
  | [] => true
  | CbKind.openCb :: rest => validTail rest
  | CbKind.failCb :: rest => validTail rest
  | _ => false

/-- The connection state transitions the claim enumerates: Connecting to Open,
Connecting to Failed, and Open to Closed. This definition follows the words of
the specification sentence under test, to be compared with the transitions the
modelled manager actually takes. -/
def claimedTransition : Connection_State_Values → Connection_State_Values → Bool
  | Connection_State_Values.connecting, Connection_State_Values.opened => true
  | Connection_State_Values.connecting, Connection_State_Values.failed => true
  | Connection_State_Values.opened, Connection_State_Values.closed => true
  | _, _ => false

/-- The connection state transitions the modelled manager can actually take:
the claimed ones plus Connecting to Closed, taken when closeAllConnections
(or the close completion it triggers) closes a connection whose handshake has
not settled. -/
def amendedTransition : Connection_State_Values → Connection_State_Values → Bool
  | Connection_State_Values.connecting, Connection_State_Values.opened => true
  | Connection_State_Values.connecting, Connection_State_Values.failed => true
  | Connection_State_Values.connecting, Connection_State_Values.closed => true
  | Connection_State_Values.opened, Connection_State_Values.closed => true
  | _, _ => false

/-- Every state-change entry of an effect log satisfies the given transition
relation. -/
def logTransitionsOk (f : Connection_State_Values → Connection_State_Values → Bool)
    (log : List LogEntry) : Bool :=
  log.all (fun entry =>
    match entry with
    | LogEntry.stateChange _ a b => f a b
    | _ => true)

/-- The error-reason invariant of spec section 3: errorReason is present if
and only if the state is Failed. -/
def connInvariant (c : Connection) : Bool :=
  match c.state with
  | Connection_State_Values.failed => c.errorReason.isSome
  | _ => c.errorReason.isNone

/-- Every connection in the registry satisfies the error-reason invariant. -/
def registryInvariant (m : ConnectionManager) : Bool :=
  m.registry.all connInvariant

end Client

/-! ## Driver embedding

The definitions below embed Cthun::runTestConnection from src/src/main.cpp.
The driver interacts with the manager and the wall clock; the outcomes it
branches on (whether createConnection or open throws a client_error in an
iteration, each connection state at send time, whether a manager send or the
final close throws) are runtime inputs and are passed as oracle functions.
What is embedded exactly is the control flow of the function and the ordered
list of externally visible actions it performs. The unused local Connection
object of main.cpp line 37 has no observable action and is omitted, and
configureSecureEndpoint (line 34, outside every try block, so a throw there
would propagate out of runTestConnection) is recorded as a single action. -/

namespace Driver

/-- Where an iteration of the connect loop of main.cpp (lines 41 to 85) can
throw a client_error: in the createConnection call (line 45) before anything
else in the iteration happened, or in the CONNECTION_MANAGER.open call
(line 77) after the connection was created and its callbacks registered. -/
inductive ThrowPoint where
  | atCreate
  | atOpen
deriving DecidableEq

/-- The externally visible actions of runTestConnection, in program order:
endpoint configuration (line 34), per-connection creation (line 45), fail and
open callback registration (lines 73 and 74), the manager open call (line 77),
fixed wall-clock sleeps with their duration in seconds (lines 89, 117 and
123), the manager send of the synchronous message (line 101), the skip branch
for a connection that is not open (line 105), and closeAllConnections
(line 125). -/
inductive DriverAction where
  | configureEndpoint
  | createConn (i : Nat)
  | setOnFail (i : Nat)
  | setOnOpen (i : Nat)
  | openConn (i : Nat)
  | sleepSeconds (n : Nat)
  | managerSend (i : Nat) (msg : String)
  | skipSend (i : Nat)
  | closeAll
deriving DecidableEq

/-- The synchronous message built at main.cpp lines 98 and 99 for the
connection with 1-based index idx. -/
def syncMessage (idx : Nat) : String :=
  "### Message (SYNC) for connection " ++ Nat.repr idx

/-- Actions of the connect loop (main.cpp lines 41 to 85) from iteration i
with rem iterations remaining: each iteration creates a connection, registers
the fail and open callbacks, and opens it; the first iteration whose oracle
says a client_error was thrown truncates the loop (the catch at line 81
returns from the function), with nothing recorded for a throw inside
createConnection and the completed actions recorded for a throw inside
open. -/
def connectLoopActs (throws : Nat → Option ThrowPoint) : Nat → Nat → List DriverAction
  | _, 0 => []
  | i, rem + 1 =>
    match throws i with
    | some ThrowPoint.atCreate => []
    | some ThrowPoint.atOpen =>
      [DriverAction.createConn i, DriverAction.setOnFail i,
       DriverAction.setOnOpen i, DriverAction.openConn i]
    | none =>
      DriverAction.createConn i :: DriverAction.setOnFail i
        :: DriverAction.setOnOpen i :: DriverAction.openConn i
        :: connectLoopActs throws (i + 1) rem

/-- Whether the connect loop throws a client_error in some iteration, ending
runTestConnection with return value 1 (main.cpp lines 81 to 84). -/
def connectLoopThrew (throws : Nat → Option ThrowPoint) : Nat → Nat → Bool
  | _, 0 => false
  | i, rem + 1 =>
    match throws i with
    | some _ => true
    | none => connectLoopThrew throws (i + 1) rem

/-- Actions of the send phase (main.cpp lines 93 to 113) from connection
index i with rem connections remaining: each stored connection is sent the
synchronous message through the manager if its state reads open (line 100),
and skipped otherwise; a client_error thrown by a manager send truncates the
phase (the catch at line 109 returns 1). -/
def sendPhaseActs (stateAt : Nat → Connection_State_Values)
    (sendThrows : Nat → Bool) : Nat → Nat → List DriverAction
  | _, 0 => []
  | i, rem + 1 =>
    if stateAt i = Connection_State_Values.opened then
      if sendThrows i = true then
        [DriverAction.managerSend i (syncMessage (i + 1))]
      else
        DriverAction.managerSend i (syncMessage (i + 1))
          :: sendPhaseActs stateAt sendThrows (i + 1) rem
    else
      DriverAction.skipSend i :: sendPhaseActs stateAt sendThrows (i + 1) rem

/-- Whether the send phase throws a client_error in some manager send. -/
def sendPhaseThrew (stateAt : Nat → Connection_State_Values)
    (sendThrows : Nat → Bool) : Nat → Nat → Bool
  | _, 0 => false
  | i, rem + 1 =>
    if stateAt i = Connection_State_Values.opened then
      if sendThrows i = true then true
      else sendPhaseThrew stateAt sendThrows (i + 1) rem
    else sendPhaseThrew stateAt sendThrows (i + 1) rem

/-- Embedding of Cthun::runTestConnection (main.cpp lines 27 to 132): returns
the exit code together with the ordered actions the driver performed. After
the connect loop the driver sleeps a fixed 4 seconds to let the handshakes
complete (lines 87 to 90), runs the send phase, sleeps a fixed 4 then 6
seconds (lines 117 and 123), and calls closeAllConnections (line 125),
returning 1 from whichever catch block first observes a client_error and 0
otherwise. -/
def runTestConnection (num : Nat) (throws : Nat → Option ThrowPoint)
    (stateAt : Nat → Connection_State_Values) (sendThrows : Nat → Bool)
    (closeThrows : Bool) : Nat × List DriverAction :=
  if connectLoopThrew throws 0 num = true then
    (1, DriverAction.configureEndpoint :: connectLoopActs throws 0 num)
  else if sendPhaseThrew stateAt sendThrows 0 num = true then
    (1, DriverAction.configureEndpoint :: connectLoopActs throws 0 num
          ++ DriverAction.sleepSeconds 4
            :: sendPhaseActs stateAt sendThrows 0 num)
  else if closeThrows = true then
    (1, DriverAction.configureEndpoint :: connectLoopActs throws 0 num
          ++ DriverAction.sleepSeconds 4
            :: sendPhaseActs stateAt sendThrows 0 num
          ++ [DriverAction.sleepSeconds 4, DriverAction.sleepSeconds 6,
              DriverAction.closeAll])
  else
    (0, DriverAction.configureEndpoint :: connectLoopActs throws 0 num
          ++ DriverAction.sleepSeconds 4
            :: sendPhaseActs stateAt sendThrows 0 num
          ++ [DriverAction.sleepSeconds 4, DriverAction.sleepSeconds 6,
              DriverAction.closeAll])

/-- Membership of a connection index in an accumulator list. -/
def natMem (i : Nat) : List Nat → Bool
  | [] => false
  | j :: rest => if i = j then true else natMem i rest

/-- Scans a driver action trace and checks that every open action on a
connection index is preceded by a fail-callback registration and an
open-callback registration on that same index; the accumulators carry the
indices registered so far. -/
def cbsRegisteredBeforeOpen : List Nat → List Nat → List DriverAction → Bool
  | _, _, [] => true
  | regF, regO, a :: rest =>
    match a with
    | DriverAction.setOnFail i => cbsRegisteredBeforeOpen (i :: regF) regO rest
    | DriverAction.setOnOpen i => cbsRegisteredBeforeOpen regF (i :: regO) rest
    | DriverAction.openConn i =>
      natMem i regF && natMem i regO && cbsRegisteredBeforeOpen regF regO rest
    | _ => cbsRegisteredBeforeOpen regF regO rest

/-- An action that neither registers a callback nor opens a connection. -/
def isRegistrationNeutral : DriverAction → Bool
  | DriverAction.setOnFail _ => false
  | DriverAction.setOnOpen _ => false
  | DriverAction.openConn _ => false
  | _ => true

/-- An action allowed in a trace that aborted during the connect loop at
iteration i: the endpoint configuration and per-connection actions for
indices at most i; in particular no send-phase or close-phase action and no
creation of a connection after index i. -/
def noLaterAction (i : Nat) : DriverAction → Bool
  | DriverAction.configureEndpoint => true
  | DriverAction.createConn j => decide (j ≤ i)
  | DriverAction.setOnFail j => decide (j ≤ i)
  | DriverAction.setOnOpen j => decide (j ≤ i)
  | DriverAction.openConn j => decide (j ≤ i)
  | _ => false

/-- The frame opcodes of the transport client interface used at main.cpp
line 69 (Client::Frame_Opcode_Values::text). -/
inductive Frame_Opcode_Values where
  | text
  | binary
deriving DecidableEq

/-- A direct call to the transport client send (client_ptr of the callback,
main.cpp line 68): connection handle, payload and opcode. This path goes
straight to the engine and performs no connection-state validation, unlike the
manager send operation. -/
structure ClientSendCall where
  hdl : Nat
  payload : String
  opcode : Frame_Opcode_Values
deriving DecidableEq

/-- Embedding of the onOpen callback lambda of main.cpp lines 59 to 71: for
each message of the command-line message list, in list order, it calls
client_ptr->send(hdl, msg, text) directly on the transport client with the
connection handle obtained from the connection (line 62), bypassing
CONNECTION_MANAGER.send. -/
def onOpenCallbackSends (messages : List String) (hdl : Nat) :
    List ClientSendCall :=
  messages.map (fun msg =>
    { hdl := hdl, payload := msg, opcode := Frame_Opcode_Values.text })

end Driver

/-! ## Helper lemmas -/

namespace Client

theorem findConn_updateConn (reg : List Connection) (cid : Nat)
    (f : Connection → Connection) (hf : ∀ c, (f c).id = c.id) :
    findConn (updateConn reg cid f) cid = Option.map f (findConn reg cid) := by
  induction reg with
  | nil => rfl
  | cons c rest ih =>
    by_cases hc : c.id = cid
    · simp [updateConn, findConn, hc, hf c]
    · simp [updateConn, findConn, hc] at ih ⊢
      exact ih

theorem findConn_all {reg : List Connection} {p : Connection → Bool} {cid : Nat}
    {c : Connection} (hall : reg.all p = true) (hfind : findConn reg cid = some c) :
    p c = true := by
  induction reg with
  | nil => simp [findConn] at hfind
  | cons c0 rest ih =>
    simp only [List.all_cons, Bool.and_eq_true] at hall
    by_cases hc : c0.id = cid
    · simp [findConn, hc] at hfind
      exact hfind ▸ hall.1
    · simp [findConn, hc] at hfind
      exact ih hall.2 hfind

theorem updateConn_all {reg : List Connection} {p : Connection → Bool}
    (cid : Nat) (f : Connection → Connection) (hall : reg.all p = true)
    (hf : ∀ c, p c = true → p (f c) = true) :
    (updateConn reg cid f).all p = true := by
  induction reg with
  | nil => rfl
  | cons c rest ih =>
    simp only [List.all_cons, Bool.and_eq_true] at hall
    by_cases hc : c.id = cid
    · simp only [updateConn, List.map_cons, hc, if_pos rfl, List.all_cons,
        Bool.and_eq_true]
      exact ⟨hf c hall.1, ih hall.2⟩
    · simp only [updateConn, List.map_cons, if_neg hc, List.all_cons,
        Bool.and_eq_true]
      exact ⟨hall.1, ih hall.2⟩

end Client

/-! ## Claim theorems -/

open Client Driver

/-- C1: for every manager state and every registered connection whose state is
not Open (in particular Failed or Closed), a send on that connection fails
with ConnectionError(NotOpen), the manager is unchanged, and nothing reaches
the transport (empty effect log); the state test is performed inside the send
operation itself on every call, for every manager state, independently of any
caller-side pre-check. -/
theorem send_not_open_fails (m : ConnectionManager) (cid : Nat)
    (payload : String) (c : Connection)
    (hfind : Client.findConn m.registry cid = some c)
    (hst : c.state ≠ Connection_State_Values.opened) :
    Client.applyOp m (ManagerOp.sendMsg cid payload)
      = (m, [], some ConnectionError.NotOpen) := by
  simp [Client.applyOp, Client.sendMessage, hfind, hst]

/-- A manager holding one connection whose handshake failed. -/
def failedConnExample : Connection :=
  { id := 0, targetUrl := "wss://localhost:8090/cthun/",
    state := Connection_State_Values.failed,
    errorReason := some "handshake failed", hasHandle := false,
    onOpen := none, onFail := none }

/-- A manager state with a single Failed connection in its registry. -/
def failedMgrExample : ConnectionManager :=
  { tlsConfigured := true, registry := [failedConnExample], nextId := 1 }

/-- Witness for C1: sending on the Failed connection of the example manager
fails with NotOpen, leaves the manager unchanged and reaches no transport. -/
theorem send_not_open_fails_witness :
    Client.applyOp failedMgrExample (ManagerOp.sendMsg 0 "hello")
      = (failedMgrExample, [], some ConnectionError.NotOpen) :=
  send_not_open_fails failedMgrExample 0 "hello" failedConnExample rfl
    (by decide)

/-- C6: closeAllConnections is idempotent and total on any registry state:
on an empty registry it is a successful no-op performing no transport
operations (the manager is returned unchanged with an empty effect log), and
for any manager state the first call leaves the registry empty while the
second call returns its input unchanged with an empty effect log. -/
theorem closeAllConnections_idempotent :
    (∀ m : ConnectionManager, m.registry = [] →
      Client.closeAllConnections m = (m, []))
    ∧ (∀ m : ConnectionManager,
        (Client.closeAllConnections m).1.registry = []
        ∧ Client.closeAllConnections (Client.closeAllConnections m).1
            = ((Client.closeAllConnections m).1, [])) := by
  constructor
  · intro m hreg
    cases m with
    | mk tls reg nid =>
      simp only at hreg
      subst hreg
      rfl
  · intro m
    exact ⟨rfl, rfl⟩

/-- A manager holding two previously opened connections. -/
def twoOpenMgrExample : ConnectionManager :=
  { tlsConfigured := true,
    registry :=
      [{ id := 0, targetUrl := "wss://localhost:8090/cthun/",
         state := Connection_State_Values.opened, errorReason := none,
         hasHandle := true, onOpen := some 0, onFail := some 1 },
       { id := 1, targetUrl := "wss://localhost:8090/cthun/",
         state := Connection_State_Values.opened, errorReason := none,
         hasHandle := true, onOpen := some 2, onFail := some 3 }],
    nextId := 2 }

/-- Witness for C6: on the empty initial manager closeAllConnections is a
no-op without transport operations, and on a manager with two open
connections the first call empties the registry and the second call is a
successful no-op. -/
theorem closeAllConnections_idempotent_witness :
    Client.closeAllConnections Client.initialManager
      = (Client.initialManager, [])
    ∧ ((Client.closeAllConnections twoOpenMgrExample).1.registry = []
        ∧ Client.closeAllConnections
            (Client.closeAllConnections twoOpenMgrExample).1
          = ((Client.closeAllConnections twoOpenMgrExample).1, [])) :=
  ⟨closeAllConnections_idempotent.1 Client.initialManager rfl,
   closeAllConnections_idempotent.2 twoOpenMgrExample⟩

/-- C5: opening the same connection twice without an intervening close makes
the second call fail synchronously with ConnectionError(AlreadyOpen); and the
open operation fails synchronously only for immediate precondition violations,
namely no TLS context configured, connection not found in the registry, or
connection already opened or no longer Connecting, never for a transport-level
outcome. -/
theorem open_twice_already_open :
    (∀ (m m1 : ConnectionManager) (cid : Nat) (log : List LogEntry),
        Client.openConnection m cid = Except.ok (m1, log) →
        Client.openConnection m1 cid = Except.error ConnectionError.AlreadyOpen)
    ∧ (∀ (m : ConnectionManager) (cid : Nat) (e : ConnectionError),
        Client.openConnection m cid = Except.error e →
        (e = ConnectionError.PreconditionViolated ∧ m.tlsConfigured = false)
        ∨ (e = ConnectionError.NotFound
            ∧ Client.findConn m.registry cid = none)
        ∨ (e = ConnectionError.AlreadyOpen
            ∧ ∃ c, Client.findConn m.registry cid = some c
                ∧ (c.hasHandle = true
                    ∨ c.state ≠ Connection_State_Values.connecting))) := by
  constructor
  · intro m m1 cid log h
    unfold Client.openConnection at h
    split at h
    · exact absurd h (by simp)
    next htls =>
      split at h
      · exact absurd h (by simp)
      next c hfind =>
        split at h
        · exact absurd h (by simp)
        next hguard =>
          simp only [Except.ok.injEq, Prod.mk.injEq] at h
          obtain ⟨hm1, -⟩ := h
          subst hm1
          have hid : ∀ c0 : Connection,
              (({ c0 with hasHandle := true } : Connection)).id = c0.id :=
            fun _ => rfl
          have hfind2 := Client.findConn_updateConn m.registry cid
            (fun c0 => { c0 with hasHandle := true }) hid
          rw [hfind] at hfind2
          simp [Client.openConnection, htls, hfind2]
  · intro m cid e h
    unfold Client.openConnection at h
    split at h
    next htls =>
      simp only [Except.error.injEq] at h
      exact Or.inl ⟨h.symm, htls⟩
    next htls =>
      split at h
      next hfind =>
        simp only [Except.error.injEq] at h
        exact Or.inr (Or.inl ⟨h.symm, hfind⟩)
      next c hfind =>
        split at h
        next hguard =>
          simp only [Except.error.injEq] at h
          exact Or.inr (Or.inr ⟨h.symm, c, hfind, by
            rcases hguard with hg | hg
            · exact Or.inl hg
            · exact Or.inr hg⟩)
        · exact absurd h (by simp)

/-- The example manager after TLS configuration and one created connection. -/
def oneConnMgrExample : ConnectionManager :=
  (Client.createConnection
    (Client.configureSecureEndpoint Client.initialManager)
    "wss://localhost:8090/cthun/").1

/-- The example manager after its single connection was opened once. -/
def oneConnOpenedMgrExample : ConnectionManager :=
  { oneConnMgrExample with
    registry := Client.updateConn oneConnMgrExample.registry 0
      (fun c0 => { c0 with hasHandle := true }) }

/-- Witness for C5: on the example manager the first open succeeds and the
second open fails with AlreadyOpen, and an open on the unconfigured initial
manager fails and lands in the enumerated precondition violations. -/
theorem open_twice_already_open_witness :
    Client.openConnection oneConnOpenedMgrExample 0
      = Except.error ConnectionError.AlreadyOpen
    ∧ ((ConnectionError.PreconditionViolated
          = ConnectionError.PreconditionViolated
        ∧ Client.initialManager.tlsConfigured = false)
      ∨ (ConnectionError.PreconditionViolated = ConnectionError.NotFound
          ∧ Client.findConn Client.initialManager.registry 0 = none)
      ∨ (ConnectionError.PreconditionViolated = ConnectionError.AlreadyOpen
          ∧ ∃ c, Client.findConn Client.initialManager.registry 0 = some c
              ∧ (c.hasHandle = true
                  ∨ c.state ≠ Connection_State_Values.connecting))) :=
  ⟨open_twice_already_open.1 oneConnMgrExample oneConnOpenedMgrExample 0
      [LogEntry.transport
        (TransportOp.beginHandshake 0 "wss://localhost:8090/cthun/")] rfl,
   open_twice_already_open.2 Client.initialManager 0
      ConnectionError.PreconditionViolated rfl⟩

theorem openConnection_ok_inv {m m1 : ConnectionManager} {cid : Nat}
    {log : List LogEntry}
    (h : Client.openConnection m cid = Except.ok (m1, log)) :
    ∃ c, Client.findConn m.registry cid = some c
      ∧ m1 = { m with registry := Client.updateConn m.registry cid (fun c0 => { c0 with hasHandle := true }) }
      ∧ log = [LogEntry.transport (TransportOp.beginHandshake cid c.targetUrl)] := by
  unfold Client.openConnection at h
  split at h
  · exact absurd h (by simp)
  split at h
  · exact absurd h (by simp)
  next c hfind =>
    split at h
    · exact absurd h (by simp)
    · simp only [Except.ok.injEq, Prod.mk.injEq] at h
      exact ⟨c, hfind, h.1.symm, h.2.symm⟩

theorem sendMessage_ok_inv {m : ConnectionManager} {cid : Nat} {p : String}
    {log : List LogEntry} (h : Client.sendMessage m cid p = Except.ok log) :
    log = [LogEntry.transport (TransportOp.sendFrame cid p)] := by
  unfold Client.sendMessage at h
  split at h
  · exact absurd h (by simp)
  split at h
  · simp only [Except.ok.injEq] at h
    exact h.symm
  · exact absurd h (by simp)

theorem dispatchEvent_invariant (c : Connection) (e : EngineEvent)
    (h : Client.connInvariant c = true) :
    Client.connInvariant (Client.dispatchEvent c e).1 = true := by
  cases e with
  | handshakeSuccess =>
    by_cases h1 : c.state = Connection_State_Values.connecting
    · simp [Client.dispatchEvent, h1, Client.connInvariant] at h ⊢
      exact h
    · simpa [Client.dispatchEvent, h1] using h
  | handshakeFailure reason =>
    by_cases h1 : c.state = Connection_State_Values.connecting
    · simp [Client.dispatchEvent, h1, Client.connInvariant]
    · simpa [Client.dispatchEvent, h1] using h
  | messageReceived p =>
    by_cases h1 : c.state = Connection_State_Values.opened
    · simpa [Client.dispatchEvent, h1] using h
    · simpa [Client.dispatchEvent, h1] using h
  | closeComplete =>
    by_cases h1 : c.state = Connection_State_Values.opened
    · simp [Client.dispatchEvent, h1, Client.connInvariant] at h ⊢
      exact h
    · by_cases h2 : c.state = Connection_State_Values.connecting
      · simp [Client.dispatchEvent, h1, h2, Client.connInvariant] at h ⊢
        exact h
      · simpa [Client.dispatchEvent, h1, h2] using h

theorem applyOp_invariant (m : ConnectionManager) (op : ManagerOp)
    (h : Client.registryInvariant m = true) :
    Client.registryInvariant (Client.applyOp m op).1 = true := by
  cases op with
  | configure =>
    simpa [Client.applyOp, Client.configureSecureEndpoint,
      Client.registryInvariant] using h
  | create url =>
    simp only [Client.applyOp, Client.createConnection,
      Client.registryInvariant, List.all_append] at h ⊢
    simp [h, Client.connInvariant]
  | openConn cid =>
    simp only [Client.applyOp]
    cases hoc : Client.openConnection m cid with
    | ok r =>
      obtain ⟨m1, log⟩ := r
      obtain ⟨c, hfind, hm1, hlog⟩ := openConnection_ok_inv hoc
      subst hm1
      simp only [Client.registryInvariant] at h ⊢
      exact Client.updateConn_all cid _ h (fun c0 hc0 => hc0)
    | error e => simpa using h
  | sendMsg cid payload =>
    simp only [Client.applyOp]
    cases hs : Client.sendMessage m cid payload with
    | ok log => simpa using h
    | error e => simpa using h
  | engineEvt cid e =>
    simp only [Client.applyOp]
    cases hfind : Client.findConn m.registry cid with
    | none => simpa using h
    | some c =>
      have hc : Client.connInvariant c = true := Client.findConn_all h hfind
      have hc1 : Client.connInvariant (Client.dispatchEvent c e).1 = true :=
        dispatchEvent_invariant c e hc
      simp only [Client.registryInvariant] at h ⊢
      exact Client.updateConn_all cid _ h (fun c0 _ => hc1)
  | closeAll =>
    simp [Client.applyOp, Client.closeAllConnections, Client.registryInvariant]

theorem applyOps_invariant : ∀ (ops : List ManagerOp) (m : ConnectionManager),
    Client.registryInvariant m = true →
    Client.registryInvariant (Client.applyOps m ops) = true := by
  intro ops
  induction ops with
  | nil => intro m h; exact h
  | cons op rest ih =>
    intro m h
    exact ih _ (applyOp_invariant m op h)

/-- C4: in every manager state reachable from the initial manager by any
sequence of operations, every connection in the registry has its error reason
set if and only if its state is Failed; in the Connecting, Open and Closed
states the error reason is absent. -/
theorem errorReason_iff_failed (ops : List ManagerOp) (c : Connection)
    (hmem : c ∈ (Client.applyOps Client.initialManager ops).registry) :
    c.errorReason.isSome = true ↔ c.state = Connection_State_Values.failed := by
  have hinv := applyOps_invariant ops Client.initialManager rfl
  simp only [Client.registryInvariant, List.all_eq_true] at hinv
  have hc := hinv c hmem
  cases hst : c.state with
  | connecting =>
    simp [Client.connInvariant, hst, Option.isNone_iff_eq_none] at hc
    simp [hst, hc]
  | opened =>
    simp [Client.connInvariant, hst, Option.isNone_iff_eq_none] at hc
    simp [hst, hc]
  | failed =>
    simp [Client.connInvariant, hst] at hc
    simp [hst, hc]
  | closed =>
    simp [Client.connInvariant, hst, Option.isNone_iff_eq_none] at hc
    simp [hst, hc]

/-- The operation sequence driving the example manager to hold one failed
connection. -/
def failSeqExample : List ManagerOp :=
  [ManagerOp.configure, ManagerOp.create "wss://localhost:8090/cthun/",
   ManagerOp.openConn 0,
   ManagerOp.engineEvt 0 (EngineEvent.handshakeFailure "boom")]

/-- The connection reached by the failing example sequence. -/
def failSeqConnExample : Connection :=
  { id := 0, targetUrl := "wss://localhost:8090/cthun/",
    state := Connection_State_Values.failed, errorReason := some "boom",
    hasHandle := false, onOpen := none, onFail := none }

/-- Witness for C4: the connection produced by a configure, create, open,
handshake-failure sequence has its error reason set if and only if its state
is Failed. -/
theorem errorReason_iff_failed_witness :
    failSeqConnExample.errorReason.isSome = true
      ↔ failSeqConnExample.state = Connection_State_Values.failed :=
  errorReason_iff_failed failSeqExample failSeqConnExample (by decide)

theorem dispatchEvent_transitions (c : Connection) (e : EngineEvent) :
    Client.logTransitionsOk Client.amendedTransition
      (Client.dispatchEvent c e).2 = true := by
  cases e with
  | handshakeSuccess =>
    by_cases h1 : c.state = Connection_State_Values.connecting
    · simp [Client.dispatchEvent, h1, Client.logTransitionsOk,
        Client.amendedTransition]
    · simp [Client.dispatchEvent, h1, Client.logTransitionsOk]
  | handshakeFailure reason =>
    by_cases h1 : c.state = Connection_State_Values.connecting
    · simp [Client.dispatchEvent, h1, Client.logTransitionsOk,
        Client.amendedTransition]
    · simp [Client.dispatchEvent, h1, Client.logTransitionsOk]
  | messageReceived p =>
    by_cases h1 : c.state = Connection_State_Values.opened
    · simp [Client.dispatchEvent, h1, Client.logTransitionsOk]
    · simp [Client.dispatchEvent, h1, Client.logTransitionsOk]
  | closeComplete =>
    by_cases h1 : c.state = Connection_State_Values.opened
    · simp [Client.dispatchEvent, h1, Client.logTransitionsOk,
        Client.amendedTransition]
    · by_cases h2 : c.state = Connection_State_Values.connecting
      · simp [Client.dispatchEvent, h1, h2, Client.logTransitionsOk,
          Client.amendedTransition]
      · simp [Client.dispatchEvent, h1, h2, Client.logTransitionsOk]

theorem closeAllLog_transitions (reg : List Connection) :
    Client.logTransitionsOk Client.amendedTransition
      (Client.closeAllLog reg) = true := by
  induction reg with
  | nil => rfl
  | cons c rest ih =>
    by_cases hc : c.state = Connection_State_Values.connecting
        ∨ c.state = Connection_State_Values.opened
    · rcases hc with h1 | h1 <;>
        simp [Client.closeAllLog, h1, Client.logTransitionsOk,
          Client.amendedTransition, Client.logTransitionsOk] <;>
        simpa [Client.logTransitionsOk] using ih
    · simp only [Client.closeAllLog, if_neg hc]
      exact ih

/-- C2 (amended): every state transition the modelled manager ever logs, on
any manager state and any operation, is one of Connecting to Open, Connecting
to Failed, Open to Closed, or Connecting to Closed (the last taken when a
still-Connecting connection is closed by closeAllConnections or by the close
completion it triggers); in particular Failed and Closed are terminal, and no
transition returns a connection to Connecting. -/
theorem manager_transitions_amended (m : ConnectionManager) (op : ManagerOp) :
    Client.logTransitionsOk Client.amendedTransition
      (Client.applyOp m op).2.1 = true := by
  cases op with
  | configure => rfl
  | create url => rfl
  | openConn cid =>
    simp only [Client.applyOp]
    cases hoc : Client.openConnection m cid with
    | ok r =>
      obtain ⟨m1, log⟩ := r
      obtain ⟨c, -, -, hlog⟩ := openConnection_ok_inv hoc
      subst hlog
      rfl
    | error e => rfl
  | sendMsg cid payload =>
    simp only [Client.applyOp]
    cases hs : Client.sendMessage m cid payload with
    | ok log =>
      have hlog := sendMessage_ok_inv hs
      subst hlog
      rfl
    | error e => rfl
  | engineEvt cid e =>
    simp only [Client.applyOp]
    cases hfind : Client.findConn m.registry cid with
    | none => rfl
    | some c => simpa using dispatchEvent_transitions c e
  | closeAll =>
    simpa [Client.applyOp, Client.closeAllConnections]
      using closeAllLog_transitions m.registry

/-- Counterexample to C2 as stated: closing all connections of the example
manager, whose single connection is still Connecting, logs a close request
and a Connecting to Closed state change, and that transition is not among the
three transitions the claim enumerates. -/
theorem manager_transitions_counterexample :
    (Client.applyOp oneConnMgrExample ManagerOp.closeAll).2.1
      = [LogEntry.transport (TransportOp.closeHandshake 0),
         LogEntry.stateChange 0 Connection_State_Values.connecting
           Connection_State_Values.closed]
    ∧ Client.claimedTransition Connection_State_Values.connecting
        Connection_State_Values.closed = false :=
  ⟨rfl, rfl⟩

theorem runEvents_closed (c : Connection) (events : List EngineEvent)
    (h : c.state = Connection_State_Values.closed) :
    (Client.runEvents c events).2 = [] := by
  induction events generalizing c with
  | nil => rfl
  | cons e rest ih =>
    have hd : Client.dispatchEvent c e = (c, []) := by
      cases e <;> simp [Client.dispatchEvent, h]
    simp [Client.runEvents, hd, ih c h]

theorem runEvents_failed (c : Connection) (events : List EngineEvent)
    (h : c.state = Connection_State_Values.failed) :
    (Client.runEvents c events).2 = [] := by
  induction events generalizing c with
  | nil => rfl
  | cons e rest ih =>
    have hd : Client.dispatchEvent c e = (c, []) := by
      cases e <;> simp [Client.dispatchEvent, h]
    simp [Client.runEvents, hd, ih c h]

theorem runEvents_opened (c : Connection) (events : List EngineEvent)
    (h : c.state = Connection_State_Values.opened) :
    Client.validTail (Client.cbTrace (Client.runEvents c events).2) = true := by
  induction events generalizing c with
  | nil => rfl
  | cons e rest ih =>
    cases e with
    | handshakeSuccess =>
      have hd : Client.dispatchEvent c EngineEvent.handshakeSuccess = (c, []) := by
        simp [Client.dispatchEvent, h]
      simp only [Client.runEvents, hd, List.nil_append]
      exact ih c h
    | handshakeFailure reason =>
      have hd : Client.dispatchEvent c (EngineEvent.handshakeFailure reason)
          = (c, []) := by
        simp [Client.dispatchEvent, h]
      simp only [Client.runEvents, hd, List.nil_append]
      exact ih c h
    | messageReceived p =>
      have hd : Client.dispatchEvent c (EngineEvent.messageReceived p)
          = (c, [LogEntry.callbackFired c.id CbKind.messageCb]) := by
        simp [Client.dispatchEvent, h]
      simp only [Client.runEvents, hd, Client.cbTrace, List.filterMap_append,
        List.filterMap_cons, List.filterMap_nil]
      simp only [List.nil_append, List.singleton_append, Client.validTail]
      exact ih c h
    | closeComplete =>
      have hd : Client.dispatchEvent c EngineEvent.closeComplete
          = ({ c with state := Connection_State_Values.closed,
                      hasHandle := false },
             [LogEntry.stateChange c.id Connection_State_Values.opened
                Connection_State_Values.closed,
              LogEntry.callbackFired c.id CbKind.closeCb]) := by
        simp [Client.dispatchEvent, h]
      simp only [Client.runEvents, hd]
      rw [runEvents_closed _ rest rfl]
      rfl

/-- C3: for any connection in the Connecting state and any sequence of engine
events delivered for it, the user-visible callback trace is a prefix of one
open-or-fail event, then zero or more message deliveries, then a close event:
at most one of open and fail ever fires, close never precedes the open or
fail event, and no callback fires after close. -/
theorem callback_trace_valid (c : Connection) (events : List EngineEvent)
    (h : c.state = Connection_State_Values.connecting) :
    Client.validTrace (Client.cbTrace (Client.runEvents c events).2) = true := by
  induction events generalizing c with
  | nil => rfl
  | cons e rest ih =>
    cases e with
    | handshakeSuccess =>
      have hd : Client.dispatchEvent c EngineEvent.handshakeSuccess
          = ({ c with state := Connection_State_Values.opened,
                      hasHandle := true },
             [LogEntry.stateChange c.id Connection_State_Values.connecting
                Connection_State_Values.opened,
              LogEntry.callbackFired c.id CbKind.openCb]) := by
        simp [Client.dispatchEvent, h]
      simp only [Client.runEvents, hd, Client.cbTrace, List.filterMap_append,
        List.filterMap_cons, List.filterMap_nil]
      simp only [List.nil_append, List.singleton_append, Client.validTrace]
      exact runEvents_opened _ rest rfl
    | handshakeFailure reason =>
      have hd : Client.dispatchEvent c (EngineEvent.handshakeFailure reason)
          = ({ c with state := Connection_State_Values.failed,
                      errorReason := some reason, hasHandle := false },
             [LogEntry.stateChange c.id Connection_State_Values.connecting
                Connection_State_Values.failed,
              LogEntry.callbackFired c.id CbKind.failCb]) := by
        simp [Client.dispatchEvent, h]
      simp only [Client.runEvents, hd]
      rw [runEvents_failed _ rest rfl]
      rfl
    | messageReceived p =>
      have hd : Client.dispatchEvent c (EngineEvent.messageReceived p)
          = (c, []) := by
        simp [Client.dispatchEvent, h]
      simp only [Client.runEvents, hd, List.nil_append]
      exact ih c h
    | closeComplete =>
      have hd : Client.dispatchEvent c EngineEvent.closeComplete
          = ({ c with state := Connection_State_Values.closed,
                      hasHandle := false },
             [LogEntry.stateChange c.id Connection_State_Values.connecting
                Connection_State_Values.closed]) := by
        simp [Client.dispatchEvent, h]
      simp only [Client.runEvents, hd]
      rw [runEvents_closed _ rest rfl]
      rfl

/-- A freshly created connection with both callbacks registered, still in the
Connecting state. -/
def freshConnExample : Connection :=
  { id := 0, targetUrl := "wss://localhost:8090/cthun/",
    state := Connection_State_Values.connecting, errorReason := none,
    hasHandle := false, onOpen := some 10, onFail := some 11 }

/-- Witness for C3: the trace produced by a handshake success, one message,
a close completion, and a late message on a fresh connection is valid. -/
theorem callback_trace_valid_witness :
    Client.validTrace (Client.cbTrace (Client.runEvents freshConnExample
      [EngineEvent.handshakeSuccess, EngineEvent.messageReceived "ping",
       EngineEvent.closeComplete, EngineEvent.messageReceived "late"]).2)
      = true :=
  callback_trace_valid freshConnExample
    [EngineEvent.handshakeSuccess, EngineEvent.messageReceived "ping",
     EngineEvent.closeComplete, EngineEvent.messageReceived "late"] rfl

/-- C7 (code behavior at the failing input): on a run with one connection
where nothing throws and the connection reads Open at send time, the driver
trace waits for the handshakes with a fixed wall-clock sleep of 4 seconds
between the open call and the send phase (main.cpp lines 87 to 90), followed
by further fixed sleeps of 4 and 6 seconds before the close; no action in the
trace blocks on a completion-keyed synchronization construct, and the send
phase is entered regardless of whether connections have settled. -/
theorem driver_sleeps_for_handshakes :
    Driver.runTestConnection 1 (fun _ => none)
      (fun _ => Connection_State_Values.opened) (fun _ => false) false
      = (0, [DriverAction.configureEndpoint, DriverAction.createConn 0,
             DriverAction.setOnFail 0, DriverAction.setOnOpen 0,
             DriverAction.openConn 0, DriverAction.sleepSeconds 4,
             DriverAction.managerSend 0 (Driver.syncMessage 1),
             DriverAction.sleepSeconds 4, DriverAction.sleepSeconds 6,
             DriverAction.closeAll]) := rfl

theorem cbsRegisteredBeforeOpen_neutral (acts : List DriverAction)
    (h : acts.all Driver.isRegistrationNeutral = true) :
    ∀ regF regO, Driver.cbsRegisteredBeforeOpen regF regO acts = true := by
  induction acts with
  | nil => intro _ _; rfl
  | cons a rest ih =>
    intro regF regO
    simp only [List.all_cons, Bool.and_eq_true] at h
    cases a with
    | setOnFail i => simp [Driver.isRegistrationNeutral] at h
    | setOnOpen i => simp [Driver.isRegistrationNeutral] at h
    | openConn i => simp [Driver.isRegistrationNeutral] at h
    | configureEndpoint => exact ih h.2 regF regO
    | createConn i => exact ih h.2 regF regO
    | sleepSeconds n => exact ih h.2 regF regO
    | managerSend i msg => exact ih h.2 regF regO
    | skipSend i => exact ih h.2 regF regO
    | closeAll => exact ih h.2 regF regO

theorem sendPhaseActs_neutral (stateAt : Nat → Connection_State_Values)
    (sendThrows : Nat → Bool) : ∀ (rem i : Nat),
    (Driver.sendPhaseActs stateAt sendThrows i rem).all
      Driver.isRegistrationNeutral = true := by
  intro rem
  induction rem with
  | zero => intro i; rfl
  | succ n ih =>
    intro i
    by_cases hs : stateAt i = Connection_State_Values.opened
    · by_cases ht : sendThrows i = true
      · simp [Driver.sendPhaseActs, hs, ht, Driver.isRegistrationNeutral]
      · simp [Driver.sendPhaseActs, hs, ht, Driver.isRegistrationNeutral,
          ih (i + 1)]
    · simp [Driver.sendPhaseActs, hs, Driver.isRegistrationNeutral, ih (i + 1)]

theorem cbsRegisteredBeforeOpen_loop (throws : Nat → Option ThrowPoint) :
    ∀ (rem i : Nat) (rest : List DriverAction),
      (∀ regF regO, Driver.cbsRegisteredBeforeOpen regF regO rest = true) →
      ∀ regF regO, Driver.cbsRegisteredBeforeOpen regF regO
        (Driver.connectLoopActs throws i rem ++ rest) = true := by
  intro rem
  induction rem with
  | zero => intro i rest hrest regF regO; exact hrest regF regO
  | succ n ih =>
    intro i rest hrest regF regO
    cases hth : throws i with
    | none =>
      simp only [Driver.connectLoopActs, hth, List.cons_append]
      simp only [Driver.cbsRegisteredBeforeOpen, Driver.natMem, if_pos,
        Bool.and_eq_true]
      refine ⟨⟨?_, ?_⟩, ih (i + 1) rest hrest (i :: regF) (i :: regO)⟩
      · simp [Driver.natMem]
      · simp [Driver.natMem]
    | some tp =>
      cases tp with
      | atCreate =>
        simp only [Driver.connectLoopActs, hth, List.nil_append]
        exact hrest regF regO
      | atOpen =>
        simp only [Driver.connectLoopActs, hth, List.cons_append,
          List.nil_append]
        simp only [Driver.cbsRegisteredBeforeOpen, Bool.and_eq_true]
        refine ⟨⟨?_, ?_⟩, hrest (i :: regF) (i :: regO)⟩
        · simp [Driver.natMem]
        · simp [Driver.natMem]

theorem cbsRegisteredBeforeOpen_run (throws : Nat → Option ThrowPoint)
    (num : Nat) (rest : List DriverAction)
    (hrest : rest.all Driver.isRegistrationNeutral = true) :
    Driver.cbsRegisteredBeforeOpen [] [] (DriverAction.configureEndpoint
      :: Driver.connectLoopActs throws 0 num ++ rest) = true :=
  cbsRegisteredBeforeOpen_loop throws num 0 rest
    (cbsRegisteredBeforeOpen_neutral rest hrest) [] []

/-- C8: in every driver run, every connection the driver opens had its fail
callback and its open callback registered on it earlier in the trace (for any
number of connections and any pattern of exceptions and connection states);
and registering a handler of a kind on a connection replaces any previously
registered handler of that kind. -/
theorem callbacks_registered_before_open :
    (∀ (num : Nat) (throws : Nat → Option ThrowPoint)
        (stateAt : Nat → Connection_State_Values) (sendThrows : Nat → Bool)
        (closeThrows : Bool),
        Driver.cbsRegisteredBeforeOpen [] []
          (Driver.runTestConnection num throws stateAt sendThrows
            closeThrows).2 = true)
    ∧ (∀ (c : Connection) (cb1 cb2 : Nat),
        (Client.setOnOpenCallback (Client.setOnOpenCallback c cb1) cb2).onOpen
            = some cb2
        ∧ (Client.setOnFailCallback (Client.setOnFailCallback c cb1)
            cb2).onFail = some cb2) := by
  constructor
  · intro num throws stateAt sendThrows closeThrows
    unfold Driver.runTestConnection
    by_cases h1 : Driver.connectLoopThrew throws 0 num = true
    · rw [if_pos h1]
      have := cbsRegisteredBeforeOpen_run throws num [] rfl
      simpa using this
    · rw [if_neg h1]
      by_cases h2 : Driver.sendPhaseThrew stateAt sendThrows 0 num = true
      · rw [if_pos h2]
        exact cbsRegisteredBeforeOpen_run throws num _
          (by simp [List.all_cons, Driver.isRegistrationNeutral,
            sendPhaseActs_neutral])
      · rw [if_neg h2]
        have hrest : ((DriverAction.sleepSeconds 4
            :: Driver.sendPhaseActs stateAt sendThrows 0 num)
                ++ [DriverAction.sleepSeconds 4, DriverAction.sleepSeconds 6,
                    DriverAction.closeAll]).all
              Driver.isRegistrationNeutral = true := by
          simp [List.all_cons, List.all_append, Driver.isRegistrationNeutral,
            sendPhaseActs_neutral]
        by_cases h3 : closeThrows = true
        · rw [if_pos h3]
          show Driver.cbsRegisteredBeforeOpen [] [] (_ ++ _ ++ _) = true
          rw [List.append_assoc]
          exact cbsRegisteredBeforeOpen_run throws num _ hrest
        · rw [if_neg h3]
          show Driver.cbsRegisteredBeforeOpen [] [] (_ ++ _ ++ _) = true
          rw [List.append_assoc]
          exact cbsRegisteredBeforeOpen_run throws num _ hrest
  · intro c cb1 cb2
    exact ⟨rfl, rfl⟩

theorem connectLoop_throw_spec (throws : Nat → Option ThrowPoint) (i : Nat)
    (tp : ThrowPoint) (hthrow : throws i = some tp) :
    ∀ (rem start : Nat), start ≤ i → i < start + rem →
      (∀ j, start ≤ j → j < i → throws j = none) →
      Driver.connectLoopThrew throws start rem = true
      ∧ (Driver.connectLoopActs throws start rem).all
          (Driver.noLaterAction i) = true := by
  intro rem
  induction rem with
  | zero =>
    intro start h1 h2 h3
    omega
  | succ n ih =>
    intro start h1 h2 h3
    cases hth : throws start with
    | none =>
      have hne : start ≠ i := by
        intro he
        rw [he, hthrow] at hth
        cases hth
      have hlt : start < i := lt_of_le_of_ne h1 hne
      have hrec := ih (start + 1) hlt (by omega)
        (fun j hj1 hj2 => h3 j (by omega) hj2)
      constructor
      · simp only [Driver.connectLoopThrew, hth]
        exact hrec.1
      · simp only [Driver.connectLoopActs, hth, List.all_cons,
          Bool.and_eq_true, Driver.noLaterAction]
        refine ⟨?_, ?_, ?_, ?_, hrec.2⟩ <;> simp [Nat.le_of_lt hlt]
    | some tp2 =>
      have heq : start = i := by
        by_contra hne
        have hlt : start < i := lt_of_le_of_ne h1 hne
        rw [h3 start le_rfl hlt] at hth
        cases hth
      constructor
      · simp [Driver.connectLoopThrew, hth]
      · subst heq
        cases tp2 with
        | atCreate => simp [Driver.connectLoopActs, hth]
        | atOpen =>
          simp [Driver.connectLoopActs, hth, Driver.noLaterAction]

/-- C9: if the driver loop throws a client_error while creating or opening
the connection of index i (all earlier iterations having succeeded), then
runTestConnection returns 1 and its whole trace contains only the endpoint
configuration and per-connection actions for indices at most i: connections
after i are never created or opened and the send, sleep and close phases are
never reached. -/
theorem connect_loop_aborts_batch (num : Nat)
    (throws : Nat → Option ThrowPoint)
    (stateAt : Nat → Connection_State_Values) (sendThrows : Nat → Bool)
    (closeThrows : Bool) (i : Nat) (tp : ThrowPoint)
    (hnum : i < num) (hthrow : throws i = some tp)
    (hfirst : ((List.range i).all (fun j => (throws j).isNone)) = true) :
    (Driver.runTestConnection num throws stateAt sendThrows closeThrows).1 = 1
    ∧ ((Driver.runTestConnection num throws stateAt sendThrows
          closeThrows).2.all (Driver.noLaterAction i)) = true := by
  have hprev : ∀ j, 0 ≤ j → j < i → throws j = none := by
    intro j _ hj
    have hj2 := List.all_eq_true.mp hfirst j (List.mem_range.mpr hj)
    exact Option.isNone_iff_eq_none.mp hj2
  have hspec := connectLoop_throw_spec throws i tp hthrow num 0
    (Nat.zero_le i) (by omega) hprev
  unfold Driver.runTestConnection
  rw [if_pos hspec.1]
  refine ⟨rfl, ?_⟩
  simp only [List.all_cons, Bool.and_eq_true, Driver.noLaterAction]
  exact ⟨trivial, hspec.2⟩

/-- The throw oracle of the C9 witness run: the open call of the connection
of index 1 throws a client_error. -/
def throwsAtOneExample : Nat → Option ThrowPoint :=
  fun j => if j = 1 then some ThrowPoint.atOpen else none

/-- Witness for C9: on a three-connection run whose second open throws, the
driver returns 1 and the trace holds only configuration and per-connection
actions for indices at most 1. -/
theorem connect_loop_aborts_batch_witness :
    (Driver.runTestConnection 3 throwsAtOneExample
      (fun _ => Connection_State_Values.connecting) (fun _ => false)
      false).1 = 1
    ∧ ((Driver.runTestConnection 3 throwsAtOneExample
        (fun _ => Connection_State_Values.connecting) (fun _ => false)
        false).2.all (Driver.noLaterAction 1)) = true :=
  connect_loop_aborts_batch 3 throwsAtOneExample
    (fun _ => Connection_State_Values.connecting) (fun _ => false) false 1
    ThrowPoint.atOpen (by decide) rfl (by decide)

/-- C10: the onOpen callback of the driver sends exactly the command-line
message list on the connection, in list order, every send being a direct
transport-client call carrying the connection handle and the text opcode;
the modelled direct path (ClientSendCall) carries no manager state and
performs no state re-validation, unlike the manager send operation. -/
theorem onOpen_sends_all_messages (messages : List String) (hdl : Nat) :
    (Driver.onOpenCallbackSends messages hdl).map (fun s => s.payload)
        = messages
    ∧ ((Driver.onOpenCallbackSends messages hdl).all
        (fun s => decide (s.opcode = Driver.Frame_Opcode_Values.text
            ∧ s.hdl = hdl))) = true := by
  induction messages with
  | nil => exact ⟨rfl, rfl⟩
  | cons msg rest ih =>
    refine ⟨?_, ?_⟩
    · simpa [Driver.onOpenCallbackSends] using ih.1
    · simp [Driver.onOpenCallbackSends]

end Cthun
